import Mathlib

/-!
Shallow embedding of the @cosmicmind/domainjs contract-enforcement core
(Entity / Event / Message / Value record policies) for verification.

Modelling conventions:
  * JavaScript field values are `Val` (including the `undefined` and `null`
    sentinels); records are insertion-ordered association lists `Rec`.
  * Lifecycle callbacks (`created`, `trace`, `error`, `updated`) are
    side-effecting in the source; here their presence is a `Bool` on the
    handler and each invocation is recorded, in program order, as an `Ev`
    entry of the run's event list, carrying the exact arguments passed.
  * Per-field validators are real functions `Val → Rec → VRes`; `VRes`
    distinguishes an ordinary boolean return from a thrown exception,
    mirroring the `boolean | never` signatures of the source.
  * A run's result is an `Outcome`: normal completion, a thrown Domain
    Error (`EntityError`/`EventError`/`MessageError`/`ValueError`, carrying
    its message), or a propagated foreign exception (`thrown`).
  * ES Proxy handlers are embedded as `ProxyHandler` records whose traps
    are `Option`s; `proxyAssignWith` / `proxyDeleteWith` implement the
    strict-mode [[Set]] / [[Delete]] dispatch (absent trap = ordinary
    target operation; a set trap returning `false` raises a `TypeError`).
-/

namespace Domain

/-- A JavaScript value as far as the domain layer observes it. -/
inductive Val where
  | undef : Val
  | null : Val
  | str : String → Val
  | int : Int → Val
  | bool : Bool → Val
  deriving DecidableEq, Repr

/-- A plain record: insertion-ordered association list of own fields. -/
abbrev Rec := List (String × Val)

/-- `target[key]`: an absent key reads as `undefined`. -/
def Rec.get : Rec → String → Val
  | [], _ => Val.undef
  | (k', v) :: r, k => if k' = k then v else Rec.get r k

/-- `key in target`. -/
def Rec.hasKey : Rec → String → Bool
  | [], _ => false
  | (k', _) :: r, k => if k' = k then true else Rec.hasKey r k

/-- Ordinary `[[Set]]` on a plain object: overwrite in place, else append. -/
def Rec.put : Rec → String → Val → Rec
  | [], k, v => [(k, v)]
  | (k', v') :: r, k, v => if k' = k then (k, v) :: r else (k', v') :: Rec.put r k v

/-- Ordinary `delete target[key]` on a plain object. -/
def Rec.remove : Rec → String → Rec
  | [], _ => []
  | (k', v') :: r, k => if k' = k then r else (k', v') :: Rec.remove r k

/-- The `Value` wrapper instance: the private `_value` backing field plus
any expando own-properties later written through `Reflect.set`.
The `value` accessor on the prototype has a getter and no setter. -/
structure Value where
  _value : Val
  expando : List (String × Val) := []
  deriving DecidableEq, Repr

/-- Result of calling a caller-supplied validator: an ordinary boolean
return, or a thrown exception (the `boolean | never` signature). -/
inductive VRes where
  | ok : Bool → VRes
  | thrown : String → VRes
  deriving DecidableEq, Repr

/-- One observable step of a run: a lifecycle callback invocation with the
exact arguments the source passes, or an underlying write/delete landing. -/
inductive Ev where
  | validatorCalled : String → Val → Ev
  | updatedCalled : Val → Val → Rec → Ev
  | writeExecuted : String → Val → Ev
  | deleteExecuted : String → Ev
  | createdCalled : Rec → Ev
  | traceCalled : Rec → Ev
  | errorCalled : String → Ev
  | valueValidatorCalled : Val → Ev
  | valueCreatedCalled : Value → Ev
  | valueTraceCalled : Value → Ev
  deriving DecidableEq, Repr

/-- How an operation ends: normal result, a thrown Domain Error of the
variant at hand (with its message), or a propagated foreign exception. -/
inductive Outcome (α : Type) where
  | ok : α → Outcome α
  | domainError : String → Outcome α
  | thrown : String → Outcome α
  deriving DecidableEq, Repr

/-- JSON string escaping for quotes and backslashes (the characters the
development's concrete inputs can contain). -/
def jsonEscapeChar (c : Char) : String :=
  if c = '"' then "\\\"" else if c = '\\' then "\\\\" else String.singleton c

/-- `JSON.stringify` of a string. -/
def jsonStrLit (s : String) : String :=
  "\"" ++ String.join (s.data.map jsonEscapeChar) ++ "\""

/-- `JSON.stringify` of a standalone value, as it appears interpolated into
a template literal (`undefined` stringifies to the text `undefined`). -/
def jsonVal : Val → String
  | Val.undef => "undefined"
  | Val.null => "null"
  | Val.str s => jsonStrLit s
  | Val.int n => toString n
  | Val.bool b => if b then "true" else "false"

/-- The `"k":v` members of `JSON.stringify` of an object: fields holding
`undefined` are skipped, insertion order is kept. -/
def jsonFields : List (String × Val) → List String
  | [] => []
  | (k, v) :: r =>
    match v with
    | Val.undef => jsonFields r
    | v => (jsonStrLit k ++ ":" ++ jsonVal v) :: jsonFields r

/-- `JSON.stringify` of a plain record. -/
def jsonRec (r : Rec) : String :=
  "\x7b" ++ String.intercalate "," (jsonFields r) ++ "\x7d"

/-- `JSON.stringify` of a `Value` instance (its own enumerable fields:
`_value` first, then any expandos). -/
def jsonValue (v : Value) : String :=
  "\x7b" ++ String.intercalate "," (jsonFields (("_value", v._value) :: v.expando)) ++ "\x7d"

/-- A candidate construction target as the factories receive it: a record,
or one of the non-object sentinels that fail the structural guard. -/
inductive Input where
  | recv : Rec → Input
  | nullv : Input
  | undefv : Input
  deriving DecidableEq, Repr

/-- Modelled from the spec: the external foundationjs `guard` predicate,
"a boolean predicate asserting a value is a non-null structured object" —
true on records, false on `null`/`undefined`. (Its source is not in this
repository; only this boundary behavior is relied on.) -/
def guardInput : Input → Bool
  | Input.recv _ => true
  | _ => false

/-- `JSON.stringify(target)` as interpolated into the failure messages. -/
def jsonInput : Input → String
  | Input.recv r => jsonRec r
  | Input.nullv => "null"
  | Input.undefv => "undefined"

/-- `String(target)` as interpolated into the Event/Message hard-precondition
failure messages. -/
def strInput : Input → String
  | Input.recv _ => "[object Object]"
  | Input.nullv => "null"
  | Input.undefv => "undefined"

/-- `throwError` / `throwErrorAndTrace` of the source: build the Domain
Error, invoke the handler's `error` callback if present, then throw. -/
def throwWith {α : Type} (errP : Bool) (msg : String) : Outcome α × List Ev :=
  (Outcome.domainError msg, if errP then [Ev.errorCalled msg] else [])

/-- Prefix one recorded callback invocation onto a run's event list. -/
def prependEv {α : Type} (e : Ev) : Outcome α × List Ev → Outcome α × List Ev
  | (o, evs) => (o, e :: evs)

/-- `EntityPropertyLifecycle` (src/src/Entity.ts): per-field descriptor with
`required`, optional `validator(value, entity)` and optional `updated`
change hook (presence recorded as a `Bool`, invocations as events). -/
structure EntityPropertyLifecycle where
  required : Bool := false
  validator : Option (Val → Rec → VRes) := none
  updated : Bool := false

/-- `EntityLifecycle` (src/src/Entity.ts): `created`/`trace`/`error`
callback presence plus the per-field descriptor map (`none` models a
handler without a `properties` object). -/
structure EntityLifecycle where
  created : Bool := false
  trace : Bool := false
  error : Bool := false
  properties : Option (List (String × EntityPropertyLifecycle)) := none

/-- `EventPropertyLifecycle` (current src/src/Event.ts, which carries the
same `required`/`validator`/`updated` shape as Entity). -/
structure EventPropertyLifecycle where
  required : Bool := false
  validator : Option (Val → Rec → VRes) := none
  updated : Bool := false

/-- `EventLifecycle` (current src/src/Event.ts). -/
structure EventLifecycle where
  created : Bool := false
  trace : Bool := false
  error : Bool := false
  properties : Option (List (String × EventPropertyLifecycle)) := none

/-- `MessagePropertyLifecycle` (current src/src/Message.ts). -/
structure MessagePropertyLifecycle where
  required : Bool := false
  validator : Option (Val → Rec → VRes) := none
  updated : Bool := false

/-- `MessageLifecycle` (current src/src/Message.ts). -/
structure MessageLifecycle where
  created : Bool := false
  trace : Bool := false
  error : Bool := false
  properties : Option (List (String × MessagePropertyLifecycle)) := none

/-- `EventPropertyLifecycle` of the historical immutable Event variant
(src/unnamed/part_001): `required`/`validator` only, no `updated`. -/
structure EventPropertyLifecycleH where
  required : Bool := false
  validator : Option (Val → Rec → VRes) := none

/-- `EventLifecycle` of the historical immutable Event variant
(src/unnamed/part_001): `created`/`error`/`properties`, no `trace`. -/
structure EventLifecycleH where
  created : Bool := false
  error : Bool := false
  properties : Option (List (String × EventPropertyLifecycleH)) := none

/-- `MessagePropertyLifecycle` of the historical immutable Message variant
(appended to src/src/Value.ts). -/
structure MessagePropertyLifecycleH where
  required : Bool := false
  validator : Option (Val → Rec → VRes) := none

/-- `MessageLifecycle` of the historical immutable Message variant. -/
structure MessageLifecycleH where
  created : Bool := false
  error : Bool := false
  properties : Option (List (String × MessagePropertyLifecycleH)) := none

/-- `handler.properties?.[key]`: descriptor lookup by field name. -/
def findProp {π : Type} : List (String × π) → String → Option π
  | [], _ => none
  | (k', p) :: r, k => if k' = k then some p else findProp r k

/-- The construction-time per-field validator check shared by the required
and optional branches of the loop (the source line
`false === property.validator?.(target[key], entity)`): no validator means
pass; a throwing validator propagates its exception; an explicit `false`
fails with `"<json> <key> is invalid"` (error callback first); anything
else continues with `cont`. -/
def checkFieldValidator {π : Type} (vld : π → Option (Val → Rec → VRes))
    (errP : Bool) (jt : String) (target : Rec) (key : String) (p : π)
    (cont : Outcome Unit × List Ev) : Outcome Unit × List Ev :=
  match vld p with
  | some vf =>
    match vf (Rec.get target key) target with
    | VRes.thrown e => (Outcome.thrown e, [Ev.validatorCalled key (Rec.get target key)])
    | VRes.ok false =>
      prependEv (Ev.validatorCalled key (Rec.get target key))
        (throwWith errP (jt ++ " " ++ key ++ " is invalid"))
    | VRes.ok true => prependEv (Ev.validatorCalled key (Rec.get target key)) cont
  | none => cont

/-- The construction-validation loop shared verbatim by `makeEntity`,
`createEvent` and `createMessage` (and the historical factories): iterate
the descriptor map in insertion order; a `required` field must be present
(else `"<json> <key> is required"`) and its validator must not return
`false`; an optional field is validated only when present with a
non-`undefined` value (`key in target && 'undefined' !== typeof
target[key]`); fields without descriptors are never examined. Parameterized
by the descriptor projections so each variant instantiates it with its own
property type. -/
def checkPropsWith {π : Type} (req : π → Bool) (vld : π → Option (Val → Rec → VRes))
    (errP : Bool) (jt : String) (target : Rec) :
    List (String × π) → Outcome Unit × List Ev
  | [] => (Outcome.ok (), [])
  | (key, p) :: rest =>
    match req p, Rec.hasKey target key, Rec.get target key == Val.undef with
    | true, false, _ => throwWith errP (jt ++ " " ++ key ++ " is required")
    | true, true, _ =>
      checkFieldValidator vld errP jt target key p
        (checkPropsWith req vld errP jt target rest)
    | false, true, false =>
      checkFieldValidator vld errP jt target key p
        (checkPropsWith req vld errP jt target rest)
    | false, true, true => checkPropsWith req vld errP jt target rest
    | false, false, _ => checkPropsWith req vld errP jt target rest

/-- `makeEntity` (src/src/Entity.ts lines 160-192): guard the target and the
`properties` map, run the construction validation loop, then fire `created`
and `trace` and hand back the guarded record; every failure goes through
`throwError` (error callback first, message `"<json-target> is invalid"`
for the hard precondition / missing-properties fallthrough). -/
def makeEntity (target : Input) (h : EntityLifecycle) : Outcome Rec × List Ev :=
  match target with
  | Input.recv r =>
    match h.properties with
    | some ps =>
      match checkPropsWith EntityPropertyLifecycle.required EntityPropertyLifecycle.validator
          h.error (jsonRec r) r ps with
      | (Outcome.ok _, evs) =>
        (Outcome.ok r,
          evs ++ (if h.created then [Ev.createdCalled r] else [])
              ++ (if h.trace then [Ev.traceCalled r] else []))
      | (Outcome.domainError m, evs) => (Outcome.domainError m, evs)
      | (Outcome.thrown e, evs) => (Outcome.thrown e, evs)
    | none => throwWith h.error (jsonInput (Input.recv r) ++ " is invalid")
  | i => throwWith h.error (jsonInput i ++ " is invalid")

/-- `defineEntity` (src/src/Entity.ts): factory closing over the handler. -/
def defineEntity (h : EntityLifecycle) : Input → Outcome Rec × List Ev :=
  fun target => makeEntity target h

/-- `createEvent` (current src/src/Event.ts lines 183-215): same validation
loop; on success `created` then `trace`; but the hard-precondition /
missing-properties fallthrough throws `new EventError` directly, without
invoking the `error` callback, with message `"<String-target> is invalid"`. -/
def createEvent (target : Input) (h : EventLifecycle) : Outcome Rec × List Ev :=
  match target with
  | Input.recv r =>
    match h.properties with
    | some ps =>
      match checkPropsWith EventPropertyLifecycle.required EventPropertyLifecycle.validator
          h.error (jsonRec r) r ps with
      | (Outcome.ok _, evs) =>
        (Outcome.ok r,
          evs ++ (if h.created then [Ev.createdCalled r] else [])
              ++ (if h.trace then [Ev.traceCalled r] else []))
      | (Outcome.domainError m, evs) => (Outcome.domainError m, evs)
      | (Outcome.thrown e, evs) => (Outcome.thrown e, evs)
    | none => (Outcome.domainError (strInput (Input.recv r) ++ " is invalid"), [])
  | i => (Outcome.domainError (strInput i ++ " is invalid"), [])

/-- `defineEvent` (current src/src/Event.ts). -/
def defineEvent (h : EventLifecycle) : Input → Outcome Rec × List Ev :=
  fun target => createEvent target h

/-- `createMessage` (current src/src/Message.ts lines 183-215): identical to
`createEvent` up to the error kind. -/
def createMessage (target : Input) (h : MessageLifecycle) : Outcome Rec × List Ev :=
  match target with
  | Input.recv r =>
    match h.properties with
    | some ps =>
      match checkPropsWith MessagePropertyLifecycle.required MessagePropertyLifecycle.validator
          h.error (jsonRec r) r ps with
      | (Outcome.ok _, evs) =>
        (Outcome.ok r,
          evs ++ (if h.created then [Ev.createdCalled r] else [])
              ++ (if h.trace then [Ev.traceCalled r] else []))
      | (Outcome.domainError m, evs) => (Outcome.domainError m, evs)
      | (Outcome.thrown e, evs) => (Outcome.thrown e, evs)
    | none => (Outcome.domainError (strInput (Input.recv r) ++ " is invalid"), [])
  | i => (Outcome.domainError (strInput i ++ " is invalid"), [])

/-- `defineMessage` (current src/src/Message.ts). -/
def defineMessage (h : MessageLifecycle) : Input → Outcome Rec × List Ev :=
  fun target => createMessage target h

/-- An ES `ProxyHandler` over a target of type `σ`: the traps the source
object literals may define. A trap yields the new target state, its own
return value (`Outcome Bool`: the trap's boolean result, a thrown Domain
Error, or a propagated foreign exception), and the recorded events. Traps
the literal does not define are `none`, so the operation forwards to the
target (the ordinary behavior). -/
structure ProxyHandler (σ : Type) where
  trapSet : Option (σ → String → Val → σ × Outcome Bool × List Ev) := none
  trapDeleteProperty : Option (σ → String → σ × Outcome Bool × List Ev) := none

/-- Strict-mode assignment `proxy[key] = value` through a `ProxyHandler`:
dispatch to the `set` trap when defined (a `false` trap result raises a
`TypeError` at the assignment site), else perform the ordinary target
write given by `ordinary`. -/
def proxyAssignWith {σ : Type} (ordinary : σ → String → Val → σ × Bool)
    (h : ProxyHandler σ) (target : σ) (key : String) (value : Val) :
    σ × Outcome Unit × List Ev :=
  match h.trapSet with
  | some trap =>
    match trap target key value with
    | (t, Outcome.ok true, evs) => (t, Outcome.ok (), evs)
    | (t, Outcome.ok false, evs) => (t, Outcome.thrown "TypeError", evs)
    | (t, Outcome.domainError m, evs) => (t, Outcome.domainError m, evs)
    | (t, Outcome.thrown e, evs) => (t, Outcome.thrown e, evs)
  | none =>
    match ordinary target key value with
    | (t, true) => (t, Outcome.ok (), [Ev.writeExecuted key value])
    | (t, false) => (t, Outcome.thrown "TypeError", [])

/-- Strict-mode `delete proxy[key]` through a `ProxyHandler`: dispatch to
the `deleteProperty` trap when defined, else perform the ordinary target
deletion given by `ordinary`. -/
def proxyDeleteWith {σ : Type} (ordinary : σ → String → σ × Bool)
    (h : ProxyHandler σ) (target : σ) (key : String) :
    σ × Outcome Unit × List Ev :=
  match h.trapDeleteProperty with
  | some trap =>
    match trap target key with
    | (t, Outcome.ok true, evs) => (t, Outcome.ok (), evs)
    | (t, Outcome.ok false, evs) => (t, Outcome.thrown "TypeError", evs)
    | (t, Outcome.domainError m, evs) => (t, Outcome.domainError m, evs)
    | (t, Outcome.thrown e, evs) => (t, Outcome.thrown e, evs)
  | none =>
    match ordinary target key with
    | (t, true) => (t, Outcome.ok (), [Ev.deleteExecuted key])
    | (t, false) => (t, Outcome.thrown "TypeError", [])

/-- Ordinary `[[Set]]` on a plain record target (always succeeds). -/
def recOrdinarySet (r : Rec) (k : String) (v : Val) : Rec × Bool :=
  (Rec.put r k v, true)

/-- Ordinary `delete` on a plain record target (own data properties are
configurable, so deletion succeeds). -/
def recOrdinaryDelete (r : Rec) (k : String) : Rec × Bool :=
  (Rec.remove r k, true)

/-- The tail of the mutable `set` trap once validation has passed (or no
descriptor/validator applies): `updated` with the pre-write value, the
underlying `Reflect.set`, then `trace` with the post-write record. -/
def mutableSetProceed {π : Type} (upd : π → Bool) (traceP : Bool)
    (property : Option π) (target : Rec) (key : String) (value : Val)
    (acc : List Ev) : Rec × Outcome Bool × List Ev :=
  let evs1 := acc ++ (match property with
    | some p => if upd p then [Ev.updatedCalled value (Rec.get target key) target] else []
    | none => [])
  let t2 := Rec.put target key value
  (t2, Outcome.ok true,
    evs1 ++ [Ev.writeExecuted key value] ++ (if traceP then [Ev.traceCalled t2] else []))

/-- The `set` trap body shared (up to the rendering of the key inside the
failure message) by `makeEntityHandler`, `createEventHandler` and
`createMessageHandler`: look up the field's descriptor, fail with
`"<json-target> <key-repr> is invalid"` (error callback first) when its
validator returns `false`, otherwise invoke `updated` with the pre-write
value, perform the underlying write, and fire `trace` on the post-write
record. Parameterized by the descriptor projections. -/
def mutableSetTrap {π : Type} (vld : π → Option (Val → Rec → VRes)) (upd : π → Bool)
    (keyRepr : String → String) (errP traceP : Bool)
    (props : Option (List (String × π)))
    (target : Rec) (key : String) (value : Val) : Rec × Outcome Bool × List Ev :=
  let property := match props with
    | some ps => findProp ps key
    | none => none
  match property with
  | some p =>
    match vld p with
    | some vf =>
      match vf value target with
      | VRes.thrown e => (target, Outcome.thrown e, [Ev.validatorCalled key value])
      | VRes.ok false =>
        let m := jsonRec target ++ " " ++ keyRepr key ++ " is invalid"
        (target, Outcome.domainError m,
          [Ev.validatorCalled key value] ++ (if errP then [Ev.errorCalled m] else []))
      | VRes.ok true =>
        mutableSetProceed upd traceP (some p) target key value [Ev.validatorCalled key value]
    | none => mutableSetProceed upd traceP (some p) target key value []
  | none => mutableSetProceed upd traceP none target key value []

/-- `makeEntityHandler` (src/src/Entity.ts lines 117-134): only a `set`
trap; its failure message renders the key as `JSON.stringify(key)`. -/
def makeEntityHandler (h : EntityLifecycle) : ProxyHandler Rec :=
  { trapSet := some (mutableSetTrap EntityPropertyLifecycle.validator
      EntityPropertyLifecycle.updated jsonStrLit h.error h.trace h.properties) }

/-- `createEventHandler` (current src/src/Event.ts lines 140-157): only a
`set` trap, Entity-style (validate, update, write, trace); its failure
message renders the key as `String(key)`. -/
def createEventHandler (h : EventLifecycle) : ProxyHandler Rec :=
  { trapSet := some (mutableSetTrap EventPropertyLifecycle.validator
      EventPropertyLifecycle.updated (fun k => k) h.error h.trace h.properties) }

/-- `createMessageHandler` (current src/src/Message.ts lines 140-157). -/
def createMessageHandler (h : MessageLifecycle) : ProxyHandler Rec :=
  { trapSet := some (mutableSetTrap MessagePropertyLifecycle.validator
      MessagePropertyLifecycle.updated (fun k => k) h.error h.trace h.properties) }

/-- `makeEventHandler` of the historical immutable Event variant
(src/unnamed/part_001 lines 322-328): the `set` trap ignores its arguments
and calls `throwError('cannot modify event properties', handler)`. -/
def makeEventHandler (h : EventLifecycleH) : ProxyHandler Rec :=
  { trapSet := some (fun target _ _ =>
      (target, Outcome.domainError "cannot modify event properties",
        if h.error then [Ev.errorCalled "cannot modify event properties"] else [])) }

/-- `makeMessageHandler` of the historical immutable Message variant
(appended to src/src/Value.ts): rejects with the message-variant text. -/
def makeMessageHandler (h : MessageLifecycleH) : ProxyHandler Rec :=
  { trapSet := some (fun target _ _ =>
      (target, Outcome.domainError "cannot modify message properties",
        if h.error then [Ev.errorCalled "cannot modify message properties"] else [])) }

/-- `ValueLifecycle` (src/src/Value.ts): `created`/`trace`/`error` presence
plus the single optional `validator(value, vo)`. -/
structure ValueLifecycle where
  created : Bool := false
  trace : Bool := false
  validator : Option (Val → Value → VRes) := none
  error : Bool := false

/-- A concrete `Value` subclass, characterized by whether it overrides the
protected `prepare` hook. -/
structure ValueClass where
  prepare : Option (Val → Val) := none

/-- The `Value` constructor (src/src/Value.ts lines 70-72):
`this._value = 'function' === typeof this.prepare ? this.prepare(value) : value`. -/
def valueConstructor (c : ValueClass) (value : Val) : Value :=
  { _value := match c.prepare with
      | some p => p value
      | none => value }

/-- Ordinary `Reflect.set(target, key, value)` on a `Value` instance: the
`value` key resolves to the prototype's accessor, which has a getter and no
setter, so the write is refused; `_value` is an own writable data property;
any other key becomes an expando own property. -/
def valueReflectSet (t : Value) (key : String) (v : Val) : Value × Bool :=
  if key = "value" then (t, false)
  else if key = "_value" then ({ t with _value := v }, true)
  else ({ t with expando := Rec.put t.expando key v }, true)

/-- The `set` trap of `createValueHandler` (src/src/Value.ts lines 130-139):
re-invoke the handler's validator on the incoming value; an explicit
`false` throws `new ValueError` with message `"<key> is invalid"` directly
(without invoking the `error` callback); otherwise forward to
`Reflect.set` and return its result. -/
def valueSetTrap (h : ValueLifecycle) (target : Value) (key : String) (value : Val) :
    Value × Outcome Bool × List Ev :=
  match h.validator with
  | some vf =>
    match vf value target with
    | VRes.thrown e => (target, Outcome.thrown e, [Ev.valueValidatorCalled value])
    | VRes.ok false =>
      (target, Outcome.domainError (key ++ " is invalid"), [Ev.valueValidatorCalled value])
    | VRes.ok true =>
      match valueReflectSet target key value with
      | (t, true) => (t, Outcome.ok true, [Ev.valueValidatorCalled value, Ev.writeExecuted key value])
      | (t, false) => (t, Outcome.ok false, [Ev.valueValidatorCalled value])
  | none =>
    match valueReflectSet target key value with
    | (t, true) => (t, Outcome.ok true, [Ev.writeExecuted key value])
    | (t, false) => (t, Outcome.ok false, [])

/-- `createValueHandler` (src/src/Value.ts): only a `set` trap. -/
def createValueHandler (h : ValueLifecycle) : ProxyHandler Value :=
  { trapSet := some (valueSetTrap h) }

/-- The success tail of `createValue`: `created` then `trace` fire once. -/
def valueCreateOk (target : Value) (h : ValueLifecycle) : Outcome Value × List Ev :=
  (Outcome.ok target,
    (if h.created then [Ev.valueCreatedCalled target] else [])
      ++ (if h.trace then [Ev.valueTraceCalled target] else []))

/-- `createValue` (src/src/Value.ts lines 166-181): guard the instance
(always a non-null object here), invoke the handler's validator with the
RAW construction argument `value` (the second parameter, not the prepared
stored value); explicit `false` fails through `throwErrorAndTrace` with
message `"<json-target> is invalid: <json-value>"` (error callback first);
otherwise `created` then `trace` fire and the wrapped instance is returned. -/
def createValue (target : Value) (value : Val) (h : ValueLifecycle) :
    Outcome Value × List Ev :=
  match h.validator with
  | some vf =>
    match vf value target with
    | VRes.thrown e => (Outcome.thrown e, [Ev.valueValidatorCalled value])
    | VRes.ok false =>
      prependEv (Ev.valueValidatorCalled value)
        (throwWith h.error (jsonValue target ++ " is invalid: " ++ jsonVal value))
    | VRes.ok true => prependEv (Ev.valueValidatorCalled value) (valueCreateOk target h)
  | none => valueCreateOk target h

/-- `defineValue` (src/src/Value.ts lines 118-119):
`(value) => createValue(new _class(value), value, handler)` — the class
constructor runs `prepare` first, and `createValue` receives the raw
input alongside the constructed instance. -/
def defineValue (c : ValueClass) (h : ValueLifecycle) (value : Val) :
    Outcome Value × List Ev :=
  createValue (valueConstructor c value) value h

/-- Whether an event is a mere validator invocation (as opposed to a
lifecycle callback firing or an underlying write/delete landing). -/
def Ev.isValidatorCall : Ev → Bool
  | Ev.validatorCalled _ _ => true
  | Ev.valueValidatorCalled _ => true
  | _ => false

/-- Example validator: string longer than two characters (the repository
test suite's `value => 2 < value.length`). -/
def exLongStr : Val → Rec → VRes :=
  fun v _ => VRes.ok (match v with | Val.str s => decide (2 < s.length) | _ => false)

/-- Example validator: the value is defined (a `guard(value)`-style check,
false exactly on `undefined`/`null`). -/
def exDefined : Val → Rec → VRes :=
  fun v _ => VRes.ok (!(v == Val.undef) && !(v == Val.null))

/-- Example validator that throws instead of returning a boolean. -/
def exThrowing : Val → Rec → VRes := fun _ _ => VRes.thrown "boom"

/-- Example Value validator rejecting every value. -/
def exRejectAllV : Val → Value → VRes := fun _ _ => VRes.ok false

/-- Example Value validator accepting every value. -/
def exAcceptAllV : Val → Value → VRes := fun _ _ => VRes.ok true

/-- Example `prepare` normalization: append an exclamation mark to a
string input. -/
def exBang : Val → Val :=
  fun v => match v with | Val.str s => Val.str (s ++ "!") | v => v

/-- Example Value validator accepting exactly the prepared form `"a!"`. -/
def exMatchBang : Val → Value → VRes := fun v _ => VRes.ok (v == Val.str "a!")

@[simp] theorem prependEv_fst {α : Type} (e : Ev) (x : Outcome α × List Ev) :
    (prependEv e x).1 = x.1 := by cases x; rfl

@[simp] theorem prependEv_snd {α : Type} (e : Ev) (x : Outcome α × List Ev) :
    (prependEv e x).2 = e :: x.2 := by cases x; rfl

/-- If the per-field validator check fails with a Domain Error and the
error callback is present, the `errorCalled` record is the final event. -/
theorem checkFieldValidator_tail {π : Type} (vld : π → Option (Val → Rec → VRes))
    (jt : String) (target : Rec) (key : String) (p : π)
    (cont : Outcome Unit × List Ev) (m : String)
    (hcont : cont.1 = Outcome.domainError m → ∃ pre, cont.2 = pre ++ [Ev.errorCalled m])
    (h : (checkFieldValidator vld true jt target key p cont).1 = Outcome.domainError m) :
    ∃ pre, (checkFieldValidator vld true jt target key p cont).2 = pre ++ [Ev.errorCalled m] := by
  cases hv : vld p with
  | none =>
    simp only [checkFieldValidator, hv] at h ⊢
    exact hcont h
  | some vf =>
    cases hres : vf (Rec.get target key) target with
    | thrown e => simp [checkFieldValidator, hv, hres] at h
    | ok b =>
      cases b with
      | false =>
        simp only [checkFieldValidator, hv, hres, throwWith, prependEv_fst, prependEv_snd,
          Outcome.domainError.injEq] at h ⊢
        exact ⟨[Ev.validatorCalled key (Rec.get target key)], by simp [h]⟩
      | true =>
        simp only [checkFieldValidator, hv, hres, prependEv_fst, prependEv_snd] at h ⊢
        obtain ⟨pre, hpre⟩ := hcont h
        exact ⟨Ev.validatorCalled key (Rec.get target key) :: pre, by simp [hpre]⟩

/-- If the construction-validation loop fails with a Domain Error and the
error callback is present, the `errorCalled` record is the final event. -/
theorem checkProps_domainError_tail {π : Type} (req : π → Bool)
    (vld : π → Option (Val → Rec → VRes)) (jt : String) (target : Rec)
    (ps : List (String × π)) (m : String)
    (h : (checkPropsWith req vld true jt target ps).1 = Outcome.domainError m) :
    ∃ pre, (checkPropsWith req vld true jt target ps).2 = pre ++ [Ev.errorCalled m] := by
  induction ps with
  | nil => simp [checkPropsWith] at h
  | cons kp rest ih =>
    obtain ⟨key, p⟩ := kp
    cases hr : req p <;> cases hk : Rec.hasKey target key <;>
      cases hu : Rec.get target key == Val.undef <;>
      simp only [checkPropsWith, hr, hk, hu] at h ⊢
    · exact ih h
    · exact ih h
    · exact checkFieldValidator_tail vld jt target key p _ m ih h
    · exact ih h
    · simp only [throwWith, Outcome.domainError.injEq] at h ⊢
      exact ⟨[], by simp [h]⟩
    · simp only [throwWith, Outcome.domainError.injEq] at h ⊢
      exact ⟨[], by simp [h]⟩
    · exact checkFieldValidator_tail vld jt target key p _ m ih h
    · exact checkFieldValidator_tail vld jt target key p _ m ih h

/-- If the per-field validator check ends in a propagated exception, every
event it recorded is a validator invocation (no callback fired). -/
theorem checkFieldValidator_thrown {π : Type} (vld : π → Option (Val → Rec → VRes))
    (errP : Bool) (jt : String) (target : Rec) (key : String) (p : π)
    (cont : Outcome Unit × List Ev) (e : String)
    (hcont : cont.1 = Outcome.thrown e → cont.2.all Ev.isValidatorCall = true)
    (h : (checkFieldValidator vld errP jt target key p cont).1 = Outcome.thrown e) :
    (checkFieldValidator vld errP jt target key p cont).2.all Ev.isValidatorCall = true := by
  cases hv : vld p with
  | none =>
    simp only [checkFieldValidator, hv] at h ⊢
    exact hcont h
  | some vf =>
    cases hres : vf (Rec.get target key) target with
    | thrown e' => simp [checkFieldValidator, hv, hres, Ev.isValidatorCall]
    | ok b =>
      cases b with
      | false => simp [checkFieldValidator, hv, hres, throwWith] at h
      | true =>
        simp only [checkFieldValidator, hv, hres, prependEv_fst, prependEv_snd] at h ⊢
        simp [List.all_cons, Ev.isValidatorCall, hcont h]

/-- If the construction-validation loop ends in a propagated exception,
every event it recorded is a validator invocation (no callback fired). -/
theorem checkProps_thrown_events {π : Type} (req : π → Bool)
    (vld : π → Option (Val → Rec → VRes)) (errP : Bool) (jt : String) (target : Rec)
    (ps : List (String × π)) (e : String)
    (h : (checkPropsWith req vld errP jt target ps).1 = Outcome.thrown e) :
    (checkPropsWith req vld errP jt target ps).2.all Ev.isValidatorCall = true := by
  induction ps with
  | nil => simp [checkPropsWith] at h
  | cons kp rest ih =>
    obtain ⟨key, p⟩ := kp
    cases hr : req p <;> cases hk : Rec.hasKey target key <;>
      cases hu : Rec.get target key == Val.undef <;>
      simp only [checkPropsWith, hr, hk, hu] at h ⊢
    · exact ih h
    · exact ih h
    · exact checkFieldValidator_thrown vld errP jt target key p _ e ih h
    · exact ih h
    · simp [throwWith] at h
    · simp [throwWith] at h
    · exact checkFieldValidator_thrown vld errP jt target key p _ e ih h
    · exact checkFieldValidator_thrown vld errP jt target key p _ e ih h

/-- If the Entity-style mutable `set` trap (with error callback present)
ends in a Domain Error, it leaves the target untouched and records exactly
the validator invocation followed by the error callback with the same
message. -/
theorem mutableSetTrap_domainError {π : Type} (vld : π → Option (Val → Rec → VRes))
    (upd : π → Bool) (keyRepr : String → String) (traceP : Bool)
    (props : Option (List (String × π))) (target : Rec) (key : String) (value : Val)
    (m : String)
    (h : (mutableSetTrap vld upd keyRepr true traceP props target key value).2.1
      = Outcome.domainError m) :
    mutableSetTrap vld upd keyRepr true traceP props target key value
      = (target, Outcome.domainError m, [Ev.validatorCalled key value, Ev.errorCalled m]) := by
  cases props with
  | none => simp [mutableSetTrap, mutableSetProceed] at h
  | some ps =>
    cases hfp : findProp ps key with
    | none => simp [mutableSetTrap, hfp, mutableSetProceed] at h
    | some p =>
      cases hv : vld p with
      | none => simp [mutableSetTrap, hfp, hv, mutableSetProceed] at h
      | some vf =>
        cases hres : vf value target with
        | thrown e => simp [mutableSetTrap, hfp, hv, hres] at h
        | ok b =>
          cases b with
          | false =>
            simp only [mutableSetTrap, hfp, hv, hres, if_true] at h ⊢
            simp only [Prod.snd, Prod.fst, Outcome.domainError.injEq] at h
            simp [h]
          | true => simp [mutableSetTrap, hfp, hv, hres, mutableSetProceed] at h

/-- Claim C1, counterexample: an Event guarded record produced by the
current `createEventHandler` (src/src/Event.ts) does NOT reject writes
unconditionally — built from `[("id","1"),("name","x")]` with no
descriptors and an error callback present, the write `name := "y"` lands,
changes the underlying field, ends normally, and raises no
`"cannot modify event properties"` error. -/
theorem C1_counterexample :
    proxyAssignWith recOrdinarySet
        (createEventHandler { properties := some [], error := true })
        [("id", Val.str "1"), ("name", Val.str "x")] "name" (Val.str "y")
      = ([("id", Val.str "1"), ("name", Val.str "y")], Outcome.ok (),
          [Ev.writeExecuted "name" (Val.str "y")])
  ∧ (Outcome.ok () : Outcome Unit) ≠ Outcome.domainError "cannot modify event properties" :=
  ⟨rfl, by decide⟩

/-- Claim C1, amended: only the historical immutable Event/Message variant
behaves as claimed — its `set` trap (`makeEventHandler` of
src/unnamed/part_001, `makeMessageHandler` appended to src/src/Value.ts)
rejects every write regardless of field, descriptor or value, with the
variant's Domain Error message `"cannot modify event properties"` /
`"cannot modify message properties"`, invoking the error callback first
(when present) and leaving the target unchanged. The current src/src
Event/Message handlers instead intercept writes Entity-style, so a write
to a descriptor-less field lands and changes the value. -/
theorem C1_thm :
    (∀ (cr er : Bool) (props : Option (List (String × EventPropertyLifecycleH)))
        (r : Rec) (k : String) (v : Val),
      proxyAssignWith recOrdinarySet (makeEventHandler ⟨cr, er, props⟩) r k v
        = (r, Outcome.domainError "cannot modify event properties",
            if er then [Ev.errorCalled "cannot modify event properties"] else []))
  ∧ (∀ (cr er : Bool) (props : Option (List (String × MessagePropertyLifecycleH)))
        (r : Rec) (k : String) (v : Val),
      proxyAssignWith recOrdinarySet (makeMessageHandler ⟨cr, er, props⟩) r k v
        = (r, Outcome.domainError "cannot modify message properties",
            if er then [Ev.errorCalled "cannot modify message properties"] else []))
  ∧ (∀ (cr tr er : Bool) (r : Rec) (k : String) (v : Val),
      proxyAssignWith recOrdinarySet (createEventHandler ⟨cr, tr, er, some []⟩) r k v
        = (Rec.put r k v, Outcome.ok (),
            [Ev.writeExecuted k v] ++ (if tr then [Ev.traceCalled (Rec.put r k v)] else []))) :=
  ⟨fun _ _ _ _ _ _ => rfl, fun _ _ _ _ _ _ => rfl, fun _ _ _ _ _ _ => rfl⟩

/-- Claim C4, counterexample: the spec scenario record
`[("id","1"),("name","x")]` under an Event handler that declares no field
descriptors (no `properties` object at all) does NOT construct — the
`guard(properties)` precondition fails and `createEvent` throws
`EventError("[object Object] is invalid")` (without the error callback). -/
theorem C4_counterexample :
    createEvent (Input.recv [("id", Val.str "1"), ("name", Val.str "x")])
        ⟨false, false, false, none⟩
      = (Outcome.domainError "[object Object] is invalid", [])
  ∧ (Outcome.domainError "[object Object] is invalid" : Outcome Rec)
      ≠ Outcome.ok [("id", Val.str "1"), ("name", Val.str "x")] :=
  ⟨rfl, by decide⟩

/-- Claim C4, amended: construction with no field descriptors succeeds for
every record — provided the handler carries a (possibly empty) `properties`
map: then `createEvent`/`makeEntity` return the guarded record, firing only
`created` and `trace`. A handler lacking the `properties` object entirely
fails construction instead: `createEvent` throws
`"[object Object] is invalid"` without invoking the error callback, and
`makeEntity` throws `"<json-record> is invalid"` after invoking it. -/
theorem C4_thm :
    (∀ (cr tr er : Bool) (r : Rec),
      createEvent (Input.recv r) ⟨cr, tr, er, some []⟩
        = (Outcome.ok r,
            (if cr then [Ev.createdCalled r] else [])
              ++ (if tr then [Ev.traceCalled r] else [])))
  ∧ (∀ (cr tr er : Bool) (r : Rec),
      makeEntity (Input.recv r) ⟨cr, tr, er, some []⟩
        = (Outcome.ok r,
            (if cr then [Ev.createdCalled r] else [])
              ++ (if tr then [Ev.traceCalled r] else [])))
  ∧ (∀ (cr tr er : Bool) (r : Rec),
      createEvent (Input.recv r) ⟨cr, tr, er, none⟩
        = (Outcome.domainError "[object Object] is invalid", []))
  ∧ (∀ (cr tr er : Bool) (r : Rec),
      makeEntity (Input.recv r) ⟨cr, tr, er, none⟩
        = (Outcome.domainError (jsonRec r ++ " is invalid"),
            if er then [Ev.errorCalled (jsonRec r ++ " is invalid")] else [])) :=
  ⟨fun _ _ _ _ => rfl, fun _ _ _ _ => rfl, fun _ _ _ _ => rfl, fun _ _ _ _ => rfl⟩

/-- Claim C5, counterexample: deleting the governed field `name` from an
Entity guarded record raises no Domain Error — the deletion forwards to
the target (no `deleteProperty` trap exists), removes the field, and ends
normally. -/
theorem C5_counterexample :
    proxyDeleteWith recOrdinaryDelete
        (makeEntityHandler ⟨false, false, true, some [("name", ⟨true, some exLongStr, false⟩)]⟩)
        [("name", Val.str "daniel")] "name"
      = ([], Outcome.ok (), [Ev.deleteExecuted "name"])
  ∧ Rec.hasKey [] "name" = false :=
  ⟨rfl, rfl⟩

/-- Claim C5, amended: no variant's proxy handler defines a
`deleteProperty` trap, so a post-construction `delete record[key]` is an
unconstrained pass-through for every variant: it removes the field from
the underlying record, raises no error, and fires no callback. -/
theorem C5_thm :
    (∀ (h : EntityLifecycle) (r : Rec) (k : String),
      proxyDeleteWith recOrdinaryDelete (makeEntityHandler h) r k
        = (Rec.remove r k, Outcome.ok (), [Ev.deleteExecuted k]))
  ∧ (∀ (h : EventLifecycle) (r : Rec) (k : String),
      proxyDeleteWith recOrdinaryDelete (createEventHandler h) r k
        = (Rec.remove r k, Outcome.ok (), [Ev.deleteExecuted k]))
  ∧ (∀ (h : MessageLifecycle) (r : Rec) (k : String),
      proxyDeleteWith recOrdinaryDelete (createMessageHandler h) r k
        = (Rec.remove r k, Outcome.ok (), [Ev.deleteExecuted k]))
  ∧ (∀ (h : EventLifecycleH) (r : Rec) (k : String),
      proxyDeleteWith recOrdinaryDelete (makeEventHandler h) r k
        = (Rec.remove r k, Outcome.ok (), [Ev.deleteExecuted k]))
  ∧ (∀ (h : MessageLifecycleH) (r : Rec) (k : String),
      proxyDeleteWith recOrdinaryDelete (makeMessageHandler h) r k
        = (Rec.remove r k, Outcome.ok (), [Ev.deleteExecuted k])) :=
  ⟨fun _ _ _ => rfl, fun _ _ _ => rfl, fun _ _ _ => rfl, fun _ _ _ => rfl, fun _ _ _ => rfl⟩

/-- Claim C6, code-bug evidence at the failing input: on a Value wrapper
storing `1`, writing `2` to the `value` field with a validator that does
not return `false` (whether the validator accepts everything or is absent)
does NOT replace the stored value — `Reflect.set` hits the getter-only
`value` accessor and returns `false`, so the stored value stays `1`, a
subsequent read still returns `1`, and the strict-mode assignment raises a
`TypeError`. -/
theorem C6_thm :
    proxyAssignWith valueReflectSet
        (createValueHandler ⟨false, false, some exAcceptAllV, false⟩)
        { _value := Val.int 1 } "value" (Val.int 2)
      = ({ _value := Val.int 1 }, Outcome.thrown "TypeError",
          [Ev.valueValidatorCalled (Val.int 2)])
  ∧ proxyAssignWith valueReflectSet (createValueHandler ⟨false, false, none, false⟩)
        { _value := Val.int 1 } "value" (Val.int 2)
      = ({ _value := Val.int 1 }, Outcome.thrown "TypeError", []) :=
  ⟨rfl, rfl⟩

/-- Claim C2, counterexample: the Value mutation-rejection path throws the
ValueError without first invoking the handler's error callback — with an
error callback present and a validator returning `false`, the write fails
with `"value is invalid"` but no `errorCalled` event is recorded. -/
theorem C2_counterexample :
    proxyAssignWith valueReflectSet
        (createValueHandler ⟨false, false, some exRejectAllV, true⟩)
        { _value := Val.int 1 } "value" (Val.int 2)
      = ({ _value := Val.int 1 }, Outcome.domainError "value is invalid",
          [Ev.valueValidatorCalled (Val.int 2)])
  ∧ Ev.errorCalled "value is invalid" ∉ [Ev.valueValidatorCalled (Val.int 2)] :=
  ⟨rfl, by decide⟩

/-- Claim C2, amended: when the error callback is present, every Domain
Error thrown by Entity construction, Entity mutation, Event/Message
construction under a handler that has a `properties` map, or Value
construction is preceded by an `errorCalled` invocation carrying the same
error (message), as the final event before the throw. The exceptions the
counterexample forces: the Value mutation rejection, and the Event/Message
hard-precondition/missing-`properties` fallthrough, throw without invoking
the callback. -/
theorem C2_thm :
    (∀ (h : EntityLifecycle) (i : Input) (m : String), h.error = true →
        (makeEntity i h).1 = Outcome.domainError m →
        ∃ pre, (makeEntity i h).2 = pre ++ [Ev.errorCalled m])
  ∧ (∀ (h : EntityLifecycle) (r : Rec) (k : String) (v : Val) (m : String), h.error = true →
        (proxyAssignWith recOrdinarySet (makeEntityHandler h) r k v).2.1
          = Outcome.domainError m →
        ∃ pre, (proxyAssignWith recOrdinarySet (makeEntityHandler h) r k v).2.2
          = pre ++ [Ev.errorCalled m])
  ∧ (∀ (h : EventLifecycle) (r : Rec) (ps : List (String × EventPropertyLifecycle)) (m : String),
        h.properties = some ps → h.error = true →
        (createEvent (Input.recv r) h).1 = Outcome.domainError m →
        ∃ pre, (createEvent (Input.recv r) h).2 = pre ++ [Ev.errorCalled m])
  ∧ (∀ (h : MessageLifecycle) (r : Rec) (ps : List (String × MessagePropertyLifecycle)) (m : String),
        h.properties = some ps → h.error = true →
        (createMessage (Input.recv r) h).1 = Outcome.domainError m →
        ∃ pre, (createMessage (Input.recv r) h).2 = pre ++ [Ev.errorCalled m])
  ∧ (∀ (c : ValueClass) (h : ValueLifecycle) (x : Val) (m : String), h.error = true →
        (defineValue c h x).1 = Outcome.domainError m →
        ∃ pre, (defineValue c h x).2 = pre ++ [Ev.errorCalled m]) := by
  refine ⟨?_, ?_, ?_, ?_, ?_⟩
  · intro h i m herr hout
    obtain ⟨cr, tr, er, props⟩ := h
    simp only at herr
    subst herr
    cases i with
    | recv r =>
      cases props with
      | none =>
        simp only [makeEntity, jsonInput, throwWith, if_true] at hout ⊢
        simp only [Outcome.domainError.injEq] at hout
        exact ⟨[], by simp [hout]⟩
      | some ps =>
        rcases hres : checkPropsWith EntityPropertyLifecycle.required
          EntityPropertyLifecycle.validator true (jsonRec r) r ps with ⟨o, evs⟩
        cases o with
        | ok u => simp [makeEntity, hres] at hout
        | thrown e => simp [makeEntity, hres] at hout
        | domainError m' =>
          have hta := checkProps_domainError_tail EntityPropertyLifecycle.required
            EntityPropertyLifecycle.validator (jsonRec r) r ps m' (by rw [hres])
          simp only [makeEntity, hres] at hout ⊢
          simp only [Outcome.domainError.injEq] at hout
          subst hout
          rw [hres] at hta
          simpa using hta
    | nullv =>
      simp only [makeEntity, jsonInput, throwWith, if_true] at hout ⊢
      simp only [Outcome.domainError.injEq] at hout
      exact ⟨[], by simp [hout]⟩
    | undefv =>
      simp only [makeEntity, jsonInput, throwWith, if_true] at hout ⊢
      simp only [Outcome.domainError.injEq] at hout
      exact ⟨[], by simp [hout]⟩
  · intro h r k v m herr hout
    obtain ⟨cr, tr, er, props⟩ := h
    simp only at herr
    subst herr
    rcases htr : mutableSetTrap EntityPropertyLifecycle.validator
      EntityPropertyLifecycle.updated jsonStrLit true tr props r k v with ⟨t, o, evs⟩
    cases o with
    | ok b => cases b <;> simp [proxyAssignWith, makeEntityHandler, htr] at hout
    | thrown e => simp [proxyAssignWith, makeEntityHandler, htr] at hout
    | domainError m' =>
      simp only [proxyAssignWith, makeEntityHandler, htr] at hout ⊢
      simp only [Outcome.domainError.injEq] at hout
      subst hout
      have heq := mutableSetTrap_domainError EntityPropertyLifecycle.validator
        EntityPropertyLifecycle.updated jsonStrLit tr props r k v m' (by rw [htr])
      rw [htr] at heq
      have hevs : evs = [Ev.validatorCalled k v, Ev.errorCalled m'] := by
        have := congrArg (fun x => x.2.2) heq
        simpa using this
      exact ⟨[Ev.validatorCalled k v], by simp [hevs]⟩
  · intro h r ps m hp herr hout
    obtain ⟨cr, tr, er, props⟩ := h
    simp only at hp herr
    subst herr
    subst hp
    rcases hres : checkPropsWith EventPropertyLifecycle.required
      EventPropertyLifecycle.validator true (jsonRec r) r ps with ⟨o, evs⟩
    cases o with
    | ok u => simp [createEvent, hres] at hout
    | thrown e => simp [createEvent, hres] at hout
    | domainError m' =>
      have hta := checkProps_domainError_tail EventPropertyLifecycle.required
        EventPropertyLifecycle.validator (jsonRec r) r ps m' (by rw [hres])
      simp only [createEvent, hres] at hout ⊢
      simp only [Outcome.domainError.injEq] at hout
      subst hout
      rw [hres] at hta
      simpa using hta
  · intro h r ps m hp herr hout
    obtain ⟨cr, tr, er, props⟩ := h
    simp only at hp herr
    subst herr
    subst hp
    rcases hres : checkPropsWith MessagePropertyLifecycle.required
      MessagePropertyLifecycle.validator true (jsonRec r) r ps with ⟨o, evs⟩
    cases o with
    | ok u => simp [createMessage, hres] at hout
    | thrown e => simp [createMessage, hres] at hout
    | domainError m' =>
      have hta := checkProps_domainError_tail MessagePropertyLifecycle.required
        MessagePropertyLifecycle.validator (jsonRec r) r ps m' (by rw [hres])
      simp only [createMessage, hres] at hout ⊢
      simp only [Outcome.domainError.injEq] at hout
      subst hout
      rw [hres] at hta
      simpa using hta
  · intro c h x m herr hout
    obtain ⟨cr, tr, vopt, er⟩ := h
    simp only at herr
    subst herr
    cases vopt with
    | none => simp [defineValue, createValue, valueCreateOk] at hout
    | some vf =>
      cases hres : vf x (valueConstructor c x) with
      | thrown e => simp [defineValue, createValue, hres] at hout
      | ok b =>
        cases b with
        | true => simp [defineValue, createValue, hres, valueCreateOk] at hout
        | false =>
          simp only [defineValue, createValue, hres, throwWith, prependEv_fst,
            prependEv_snd, if_true] at hout ⊢
          simp only [Outcome.domainError.injEq] at hout
          exact ⟨[Ev.valueValidatorCalled x], by simp [hout]⟩

/-- Claim C2, witness: the amended theorem applied to a concrete failing
Entity construction (handler without a `properties` map, error callback
present). -/
theorem C2_witness :
    (⟨false, false, true, none⟩ : EntityLifecycle).error = true
  ∧ ∃ pre, (makeEntity (Input.recv []) ⟨false, false, true, none⟩).2
      = pre ++ [Ev.errorCalled "\x7b\x7d is invalid"] :=
  ⟨rfl, C2_thm.1 ⟨false, false, true, none⟩ (Input.recv []) "\x7b\x7d is invalid" rfl rfl⟩

/-- Claim C3, counterexample: with `prepare` appending `"!"` and a
validator that accepts exactly the prepared form `"a!"`, constructing from
raw input `"a"` fails — because the construction-time validator is invoked
with the raw input `"a"` (recorded by the `valueValidatorCalled` event),
not with the prepared stored value `"a!"` (which it would have accepted,
third conjunct). -/
theorem C3_counterexample :
    defineValue ⟨some exBang⟩ ⟨false, false, some exMatchBang, true⟩ (Val.str "a")
      = (Outcome.domainError "\x7b\"_value\":\"a!\"\x7d is invalid: \"a\"",
          [Ev.valueValidatorCalled (Val.str "a"),
            Ev.errorCalled "\x7b\"_value\":\"a!\"\x7d is invalid: \"a\""])
  ∧ exMatchBang (Val.str "a!") { _value := Val.str "a!" } = VRes.ok true :=
  ⟨rfl, rfl⟩

/-- Claim C3, amended: with `prepare` defined, `prepare(x)` runs first and
its result is the stored value of the constructed wrapper, and with
`prepare` undefined the stored value is `x` itself — but the
construction-time validator is invoked with the raw input `x`, not with
the prepared value. -/
theorem C3_thm (p : Val → Val) (vf : Val → Value → VRes) (x : Val) (cr tr er : Bool)
    (hpass : vf x { _value := p x } = VRes.ok true) :
    defineValue ⟨some p⟩ ⟨cr, tr, some vf, er⟩ x
      = (Outcome.ok { _value := p x },
          [Ev.valueValidatorCalled x]
            ++ (if cr then [Ev.valueCreatedCalled { _value := p x }] else [])
            ++ (if tr then [Ev.valueTraceCalled { _value := p x }] else []))
  ∧ defineValue ⟨none⟩ ⟨cr, tr, none, er⟩ x
      = (Outcome.ok { _value := x },
          (if cr then [Ev.valueCreatedCalled { _value := x }] else [])
            ++ (if tr then [Ev.valueTraceCalled { _value := x }] else [])) := by
  constructor
  · simp [defineValue, createValue, valueConstructor, hpass, valueCreateOk, prependEv]
  · simp [defineValue, createValue, valueConstructor, valueCreateOk]

/-- Claim C3, witness: the amended theorem at `prepare` appending `"!"`, an
accept-all validator, and raw input `"a"` — the stored value is the
prepared `"a!"` and the validator was fed the raw `"a"`. -/
theorem C3_witness :
    exAcceptAllV (Val.str "a") { _value := Val.str "a!" } = VRes.ok true
  ∧ defineValue ⟨some exBang⟩ ⟨true, true, some exAcceptAllV, true⟩ (Val.str "a")
      = (Outcome.ok { _value := Val.str "a!" },
          [Ev.valueValidatorCalled (Val.str "a"),
            Ev.valueCreatedCalled { _value := Val.str "a!" },
            Ev.valueTraceCalled { _value := Val.str "a!" }]) :=
  ⟨rfl, (C3_thm exBang exAcceptAllV (Val.str "a") true true true rfl).1⟩

/-- Claim C7, counterexample: a required-field validator that throws does
NOT let construction proceed — `makeEntity` on `[("name","x")]` with a
throwing validator ends in the propagated exception `"boom"` (no Domain
Error, no `created`, no `error` callback), not in a successful record. -/
theorem C7_counterexample :
    makeEntity (Input.recv [("name", Val.str "x")])
        ⟨true, false, true, some [("name", ⟨true, some exThrowing, false⟩)]⟩
      = (Outcome.thrown "boom", [Ev.validatorCalled "name" (Val.str "x")])
  ∧ (Outcome.thrown "boom" : Outcome Rec) ≠ Outcome.ok [("name", Val.str "x")] :=
  ⟨rfl, by decide⟩

/-- Claim C7, amended: a construction-time validator that throws is not
converted into a validation failure — no Domain Error is raised and no
`error`/`created`/`trace` callback fires (every recorded event is a mere
validator invocation) — but construction does not proceed either: the
exception propagates and aborts construction with outcome `thrown`. -/
theorem C7_thm :
    (∀ (cr tr er : Bool) (k : String) (target : Rec) (vf : Val → Rec → VRes) (e : String),
      Rec.hasKey target k = true → vf (Rec.get target k) target = VRes.thrown e →
      makeEntity (Input.recv target) ⟨cr, tr, er, some [(k, ⟨true, some vf, false⟩)]⟩
        = (Outcome.thrown e, [Ev.validatorCalled k (Rec.get target k)]))
  ∧ (∀ (h : EntityLifecycle) (i : Input) (e : String),
      (makeEntity i h).1 = Outcome.thrown e →
      (makeEntity i h).2.all Ev.isValidatorCall = true)
  ∧ (∀ (h : EventLifecycle) (i : Input) (e : String),
      (createEvent i h).1 = Outcome.thrown e →
      (createEvent i h).2.all Ev.isValidatorCall = true)
  ∧ (∀ (c : ValueClass) (h : ValueLifecycle) (x : Val) (e : String),
      (defineValue c h x).1 = Outcome.thrown e →
      (defineValue c h x).2 = [Ev.valueValidatorCalled x]) := by
  refine ⟨?_, ?_, ?_, ?_⟩
  · intro cr tr er k target vf e hk hthrow
    simp [makeEntity, checkPropsWith, checkFieldValidator, hk, hthrow]
  · intro h i e hout
    obtain ⟨cr, tr, er, props⟩ := h
    cases i with
    | recv r =>
      cases props with
      | none => simp [makeEntity, throwWith] at hout
      | some ps =>
        rcases hres : checkPropsWith EntityPropertyLifecycle.required
          EntityPropertyLifecycle.validator er (jsonRec r) r ps with ⟨o, evs⟩
        cases o with
        | ok u => simp [makeEntity, hres] at hout
        | domainError m => simp [makeEntity, hres] at hout
        | thrown e' =>
          have hta := checkProps_thrown_events EntityPropertyLifecycle.required
            EntityPropertyLifecycle.validator er (jsonRec r) r ps e' (by rw [hres])
          rw [hres] at hta
          simp only [makeEntity, hres]
          simpa using hta
    | nullv => simp [makeEntity, throwWith] at hout
    | undefv => simp [makeEntity, throwWith] at hout
  · intro h i e hout
    obtain ⟨cr, tr, er, props⟩ := h
    cases i with
    | recv r =>
      cases props with
      | none => simp [createEvent] at hout
      | some ps =>
        rcases hres : checkPropsWith EventPropertyLifecycle.required
          EventPropertyLifecycle.validator er (jsonRec r) r ps with ⟨o, evs⟩
        cases o with
        | ok u => simp [createEvent, hres] at hout
        | domainError m => simp [createEvent, hres] at hout
        | thrown e' =>
          have hta := checkProps_thrown_events EventPropertyLifecycle.required
            EventPropertyLifecycle.validator er (jsonRec r) r ps e' (by rw [hres])
          rw [hres] at hta
          simp only [createEvent, hres]
          simpa using hta
    | nullv => simp [createEvent] at hout
    | undefv => simp [createEvent] at hout
  · intro c h x e hout
    obtain ⟨cr, tr, vopt, er⟩ := h
    cases vopt with
    | none => simp [defineValue, createValue, valueCreateOk] at hout
    | some vf =>
      cases hres : vf x (valueConstructor c x) with
      | thrown e' => simp [defineValue, createValue, hres]
      | ok b =>
        cases b with
        | true => simp [defineValue, createValue, hres, valueCreateOk] at hout
        | false => simp [defineValue, createValue, hres, throwWith] at hout

/-- Claim C7, witness: the amended theorem's causal part at the concrete
throwing validator. -/
theorem C7_witness :
    Rec.hasKey [("name", Val.str "x")] "name" = true
  ∧ makeEntity (Input.recv [("name", Val.str "x")])
        ⟨true, false, true, some [("name", ⟨true, some exThrowing, false⟩)]⟩
      = (Outcome.thrown "boom", [Ev.validatorCalled "name" (Val.str "x")]) :=
  ⟨rfl, C7_thm.1 true false true "name" [("name", Val.str "x")] exThrowing "boom" rfl rfl⟩

/-- Claim C8, counterexample: the Entity mutation failure message renders
the key through `JSON.stringify`, so the thrown message is
`{"id":"123","name":"daniel"} "name" is invalid` — with the key in JSON
quotes — and not the claimed `{"id":"123","name":"daniel"} name is invalid`. -/
theorem C8_counterexample :
    (proxyAssignWith recOrdinarySet
        (makeEntityHandler ⟨false, false, true, some [("name", ⟨true, some exLongStr, false⟩)]⟩)
        [("id", Val.str "123"), ("name", Val.str "daniel")] "name" (Val.str "a")).2.1
      = Outcome.domainError "\x7b\"id\":\"123\",\"name\":\"daniel\"\x7d \"name\" is invalid"
  ∧ "\x7b\"id\":\"123\",\"name\":\"daniel\"\x7d \"name\" is invalid"
      ≠ "\x7b\"id\":\"123\",\"name\":\"daniel\"\x7d name is invalid" :=
  ⟨rfl, by decide⟩

/-- Claim C8, amended: for an Entity guarded record and a field with a
descriptor whose validator returns `false` for the written value, the
write throws an EntityError with message
`"<debug-record> <JSON-stringified-key> is invalid"` (the key wrapped in
JSON quotes), invokes the error callback exactly once — as the final event
before the throw, with the same message — and leaves the underlying record
unchanged (the write never lands). -/
theorem C8_thm (cr tr : Bool) (props : List (String × EntityPropertyLifecycle))
    (target : Rec) (k : String) (v : Val) (p : EntityPropertyLifecycle)
    (vf : Val → Rec → VRes)
    (hp : findProp props k = some p) (hv : p.validator = some vf)
    (hf : vf v target = VRes.ok false) :
    proxyAssignWith recOrdinarySet (makeEntityHandler ⟨cr, tr, true, some props⟩) target k v
      = (target,
          Outcome.domainError (jsonRec target ++ " " ++ jsonStrLit k ++ " is invalid"),
          [Ev.validatorCalled k v,
            Ev.errorCalled (jsonRec target ++ " " ++ jsonStrLit k ++ " is invalid")]) := by
  simp [proxyAssignWith, makeEntityHandler, mutableSetTrap, hp, hv, hf]

/-- Claim C8, witness: the amended theorem at the test suite's record and
length validator, written value `"a"`. -/
theorem C8_witness :
    exLongStr (Val.str "a") [("id", Val.str "123"), ("name", Val.str "daniel")] = VRes.ok false
  ∧ proxyAssignWith recOrdinarySet
        (makeEntityHandler ⟨false, false, true, some [("name", ⟨true, some exLongStr, false⟩)]⟩)
        [("id", Val.str "123"), ("name", Val.str "daniel")] "name" (Val.str "a")
      = ([("id", Val.str "123"), ("name", Val.str "daniel")],
          Outcome.domainError
            (jsonRec [("id", Val.str "123"), ("name", Val.str "daniel")]
              ++ " " ++ jsonStrLit "name" ++ " is invalid"),
          [Ev.validatorCalled "name" (Val.str "a"),
            Ev.errorCalled
              (jsonRec [("id", Val.str "123"), ("name", Val.str "daniel")]
                ++ " " ++ jsonStrLit "name" ++ " is invalid")]) :=
  ⟨rfl, C8_thm false false [("name", ⟨true, some exLongStr, false⟩)]
    [("id", Val.str "123"), ("name", Val.str "daniel")] "name" (Val.str "a")
    ⟨true, some exLongStr, false⟩ exLongStr rfl rfl rfl⟩

/-- Claim C9: for an Entity guarded record and a governed field whose
validator passes, the write invokes the descriptor's `updated` callback
with the new value, the field's pre-write value, and the pre-write record,
strictly before the underlying write executes, and only after the write
does `trace` fire with the post-write record — exactly the recorded event
order `validator, updated(new, old, pre-record), write, trace(post-record)`. -/
theorem C9_thm (cr er : Bool) (props : List (String × EntityPropertyLifecycle))
    (target : Rec) (k : String) (v : Val) (p : EntityPropertyLifecycle)
    (vf : Val → Rec → VRes)
    (hp : findProp props k = some p) (hv : p.validator = some vf)
    (hu : p.updated = true) (hpass : vf v target = VRes.ok true) :
    proxyAssignWith recOrdinarySet (makeEntityHandler ⟨cr, true, er, some props⟩) target k v
      = (Rec.put target k v, Outcome.ok (),
          [Ev.validatorCalled k v,
            Ev.updatedCalled v (Rec.get target k) target,
            Ev.writeExecuted k v,
            Ev.traceCalled (Rec.put target k v)]) := by
  simp [proxyAssignWith, makeEntityHandler, mutableSetTrap, mutableSetProceed, hp, hv, hu, hpass]

/-- Claim C9, witness: the theorem at the test suite's record, writing
`name := "jonathan"` over `"daniel"`. -/
theorem C9_witness :
    exLongStr (Val.str "jonathan") [("id", Val.str "123"), ("name", Val.str "daniel")]
      = VRes.ok true
  ∧ proxyAssignWith recOrdinarySet
        (makeEntityHandler ⟨true, true, true, some [("name", ⟨true, some exLongStr, true⟩)]⟩)
        [("id", Val.str "123"), ("name", Val.str "daniel")] "name" (Val.str "jonathan")
      = ([("id", Val.str "123"), ("name", Val.str "jonathan")], Outcome.ok (),
          [Ev.validatorCalled "name" (Val.str "jonathan"),
            Ev.updatedCalled (Val.str "jonathan") (Val.str "daniel")
              [("id", Val.str "123"), ("name", Val.str "daniel")],
            Ev.writeExecuted "name" (Val.str "jonathan"),
            Ev.traceCalled [("id", Val.str "123"), ("name", Val.str "jonathan")]]) :=
  ⟨rfl, C9_thm true true [("name", ⟨true, some exLongStr, true⟩)]
    [("id", Val.str "123"), ("name", Val.str "daniel")] "name" (Val.str "jonathan")
    ⟨true, some exLongStr, true⟩ exLongStr rfl rfl rfl rfl⟩

/-- Claim C10: construction and mutation treat an explicitly `undefined`
value asymmetrically for an optional governed field — constructing with
the field present but `undefined` skips its validator entirely (no
`validatorCalled` event, construction succeeds even though the validator
rejects `undefined`), whereas a post-construction write of `undefined`
does invoke the validator and fails when it returns `false`. -/
theorem C10_thm (cr tr er : Bool) (k : String) (target : Rec) (vf : Val → Rec → VRes)
    (hk : Rec.hasKey target k = true) (hu : Rec.get target k = Val.undef)
    (hf : vf Val.undef target = VRes.ok false) :
    makeEntity (Input.recv target) ⟨cr, tr, er, some [(k, ⟨false, some vf, false⟩)]⟩
      = (Outcome.ok target,
          (if cr then [Ev.createdCalled target] else [])
            ++ (if tr then [Ev.traceCalled target] else []))
  ∧ (proxyAssignWith recOrdinarySet
        (makeEntityHandler ⟨cr, tr, er, some [(k, ⟨false, some vf, false⟩)]⟩)
        target k Val.undef).2.1
      = Outcome.domainError (jsonRec target ++ " " ++ jsonStrLit k ++ " is invalid") := by
  constructor
  · simp [makeEntity, checkPropsWith, hk, hu]
  · simp [proxyAssignWith, makeEntityHandler, mutableSetTrap, findProp, hf]

/-- Claim C10, witness: the theorem at the record `[("empty", undefined)]`
with the definedness validator. -/
theorem C10_witness :
    Rec.hasKey [("empty", Val.undef)] "empty" = true
  ∧ (makeEntity (Input.recv [("empty", Val.undef)])
        ⟨true, true, true, some [("empty", ⟨false, some exDefined, false⟩)]⟩
      = (Outcome.ok [("empty", Val.undef)],
          [Ev.createdCalled [("empty", Val.undef)], Ev.traceCalled [("empty", Val.undef)]])
    ∧ (proxyAssignWith recOrdinarySet
          (makeEntityHandler ⟨true, true, true, some [("empty", ⟨false, some exDefined, false⟩)]⟩)
          [("empty", Val.undef)] "empty" Val.undef).2.1
        = Outcome.domainError
            (jsonRec [("empty", Val.undef)] ++ " " ++ jsonStrLit "empty" ++ " is invalid")) :=
  ⟨rfl, C10_thm true true true "empty" [("empty", Val.undef)] exDefined rfl rfl rfl⟩

end Domain
